import Mathlib

/-!
Verification of the latest-report resolver `_fetch_latest_report_data`
(src/server.py, lines 41-112) of the Tushare MCP server.

The resolver receives a pandas DataFrame from an upstream fetch call and
returns the record(s) for the most recent announcement of a requested
reporting period.  We embed DataFrames shallowly: a record is an ordered
association list from field names to scalar values, a DataFrame is a column
list plus a row list.  Scalar values are strings or integers (the two shapes
the period and announcement columns take upstream).

Modelling notes, tied to the source:
* `df.empty` is `rows = []` (line 62).
* `'ann_date' in df.columns` is membership in the column list (line 67).
* `df[col].astype(str) == str(v)` compares the string rendering of each
  cell with the string parameter (line 83); the parameter is already a
  Python `str`, so `str(v) = v`.
* `df.sort_values(by='ann_date', ascending=False)` (lines 74, 94): the
  source passes no `kind=`, so pandas uses its default `kind='quicksort'`,
  which pandas and numpy document as not stable.  We model the sort as a
  stable descending insertion sort; this fixes the relative order of rows
  tied on `ann_date`, which the program itself does not guarantee (pandas
  `nargsort` reverses the values, applies an ascending argsort, and reverses
  the indexer, so tie order is preserved exactly when the underlying argsort
  is stable - always for kind='mergesort'/'stable' and for numpy's
  small-array insertion sort, but not in general for default quicksort).
  No theorem below about the program depends on the order of rows tied on
  `ann_date`: the properties proved are tie-order-independent (row
  membership, counts, unique-maximum selection), and any extra order
  content in a conclusion is a property of the model only.
* `df.head(1)` is `rows.take 1` (lines 69, 107).
* The whole body sits in `try ... except Exception: return None`
  (lines 60, 109-112): a raising fetch is modelled as an `Except.error`
  input, which the function converts to a normal `none` result.
-/

/-- A scalar cell value as returned by the upstream tabular source:
either a string or an integer. -/
inductive Value where
  | str (s : String)
  | int (n : Int)
deriving DecidableEq, Repr

/-- Python `str(v)`: the string rendering of a cell (used by `astype(str)`,
line 83 of the source). -/
def Value.toStr : Value → String
  | .str s => s
  | .int n => toString n

/-- Lexicographic comparison of character lists by code point, the order
Python (and hence pandas) uses on strings. -/
def strLeAux : List Char → List Char → Bool
  | [], _ => true
  | _ :: _, [] => false
  | a :: as, b :: bs =>
    if a.toNat < b.toNat then true
    else if b.toNat < a.toNat then false
    else strLeAux as bs

/-- Lexicographic string comparison by code point. -/
def strLe (a b : String) : Bool :=
  strLeAux a.data b.data

/-- Comparison on cell values, as used to sort the `ann_date` column:
strings compare lexicographically, integers numerically.  (A real upstream
column is homogeneous; the cross-type cases are an arbitrary fixed choice
that makes the comparison total.) -/
def Value.le : Value → Value → Bool
  | .int a, .int b => decide (a ≤ b)
  | .str a, .str b => strLe a b
  | .int _, .str _ => true
  | .str _, .int _ => false

/-- One row of a DataFrame: an ordered mapping from field names to values. -/
abbrev Record := List (String × Value)

/-- Cell lookup `row[col]`.  Every row of a well-formed DataFrame carries all
of its frame's columns; the default for an absent key never matters under the
column-membership hypotheses of the theorems below. -/
def Record.get (r : Record) (c : String) : Value :=
  match r.find? (fun p => p.1 == c) with
  | some p => p.2
  | none => .str ""

/-- A pandas DataFrame: the column index plus the list of rows, in upstream
order. -/
structure DataFrame where
  cols : List String
  rows : List Record
deriving DecidableEq, Repr

/-- The announcement-timestamp cell of a row (`row['ann_date']`). -/
def annOf (r : Record) : Value :=
  Record.get r "ann_date"

/-- Insert a row into a list already sorted descending by `ann_date`,
placing it before the first row whose timestamp is `≤` its own.  Combined
with `sortByAnnDesc`, rows with equal timestamps keep their upstream
relative order. -/
def insertByAnn (a : Record) : List Record → List Record
  | [] => [a]
  | b :: l => if Value.le (annOf b) (annOf a) then a :: b :: l else b :: insertByAnn a l

/-- `df.sort_values(by='ann_date', ascending=False)` on the row list,
modelled as a stable descending insertion sort.  The source uses pandas'
default `kind='quicksort'`, which is not guaranteed stable, so the tie
order this definition fixes is a modelling choice, not a program guarantee;
see the modelling notes above. -/
def sortByAnnDesc : List Record → List Record
  | [] => []
  | a :: l => insertByAnn a (sortByAnnDesc l)

/-- The row predicate of line 83: the period cell, rendered as a string,
equals the (string) target period value. -/
def periodMatches (pfield pval : String) (r : Record) : Bool :=
  (Record.get r pfield).toStr == pval

/-- `df[df[pfield].astype(str) == str(pval)]` (line 83): the rows of `df`
whose period field matches the target, in upstream order. -/
def filterPeriod (df : DataFrame) (pfield pval : String) : List Record :=
  df.rows.filter (periodMatches pfield pval)

/-- The body of `_fetch_latest_report_data` after the fetch call succeeded
(src/server.py lines 62-107).  `pfield`/`pval` are
`result_period_field_name`/`result_period_value`, `isList` is
`is_list_result`. -/
def fetchLatestReportCore (df : DataFrame) (pfield pval : String) (isList : Bool) :
    Option DataFrame :=
  if df.rows.isEmpty then
    none
  else if "ann_date" ∉ df.cols then
    if isList then some df else some ⟨df.cols, df.rows.take 1⟩
  else if pfield ∉ df.cols then
    match sortByAnnDesc df.rows with
    | [] => none
    | r :: t => some ⟨df.cols, (r :: t).filter (fun s => annOf s == annOf r)⟩
  else
    if (filterPeriod df pfield pval).isEmpty then
      none
    else
      match sortByAnnDesc (filterPeriod df pfield pval) with
      | [] => none
      | r :: t =>
        let latestRows := (r :: t).filter (fun s => annOf s == annOf r)
        if isList then some ⟨df.cols, latestRows⟩
        else some ⟨df.cols, latestRows.take 1⟩

/-- The whole of `_fetch_latest_report_data` (lines 41-112): the fetch call
`api_func(**api_params)` either raises (modelled as `Except.error` carrying
the exception message) or yields a DataFrame.  The `try`/`except Exception`
wrapper catches every exception, logs it, and returns `None` - so the
function as a whole always returns normally (`Except.ok`). -/
def fetchLatestReportData (apiResult : Except String DataFrame)
    (pfield pval : String) (isList : Bool) : Except String (Option DataFrame) :=
  match apiResult with
  | .error _ => .ok none
  | .ok df => .ok (fetchLatestReportCore df pfield pval isList)

/-- One call of the resolver together with the state of its input after the
call.  Every pandas operation the source uses (`sort_values` without
`inplace`, boolean-mask indexing, `astype`, `head`) returns a fresh object,
so the input frame is unchanged by the call. -/
def resolveCall (df : DataFrame) (pfield pval : String) (isList : Bool) :
    Option DataFrame × DataFrame :=
  (fetchLatestReportCore df pfield pval isList, df)

/-- Two successive calls of the resolver on the same parameters, the second
call running on the input frame as the first call left it.  Returns both
results and the final state of the input frame. -/
def twoCalls (df : DataFrame) (pfield pval : String) (isList : Bool) :
    (Option DataFrame × Option DataFrame) × DataFrame :=
  let first := resolveCall df pfield pval isList
  let second := resolveCall first.2 pfield pval isList
  ((first.1, second.1), second.2)

/-- The example RecordSet of spec section 8: two disclosures of period
20231231 (announced 2024-03-01 and 2024-03-15) and one of period 20221231. -/
def dfSpecExample : DataFrame :=
  ⟨["end_date", "ann_date", "profit"],
   [[("end_date", Value.str "20231231"), ("ann_date", Value.str "20240301"),
     ("profit", Value.int 100)],
    [("end_date", Value.str "20231231"), ("ann_date", Value.str "20240315"),
     ("profit", Value.int 110)],
    [("end_date", Value.str "20221231"), ("ann_date", Value.str "20230301"),
     ("profit", Value.int 90)]]⟩

/-- A RecordSet whose schema lacks the caller's period field (`end_date`),
with two records tied at the same announcement date. -/
def dfNoPeriodField : DataFrame :=
  ⟨["ann_date", "holder_name"],
   [[("ann_date", Value.str "20240301"), ("holder_name", Value.str "A")],
    [("ann_date", Value.str "20240301"), ("holder_name", Value.str "B")]]⟩

/-- The rows of `dfNoPeriodField` that the resolver returns on that input in
single mode: both tied records, not just one. -/
def dfNoPeriodFieldOut : DataFrame :=
  ⟨["ann_date", "holder_name"],
   [[("ann_date", Value.str "20240301"), ("holder_name", Value.str "A")],
    [("ann_date", Value.str "20240301"), ("holder_name", Value.str "B")]]⟩

/-- A RecordSet whose schema lacks the announcement-timestamp field. -/
def dfNoAnnField : DataFrame :=
  ⟨["end_date", "holder_num"],
   [[("end_date", Value.str "20231231"), ("holder_num", Value.int 52000)],
    [("end_date", Value.str "20230930"), ("holder_num", Value.int 51000)]]⟩

/-- The single-row result frame the resolver produces on `dfSpecExample` in
single mode: the 2024-03-15 disclosure of period 20231231. -/
def dfSpecExampleOut : DataFrame :=
  ⟨["end_date", "ann_date", "profit"],
   [[("end_date", Value.str "20231231"), ("ann_date", Value.str "20240315"),
     ("profit", Value.int 110)]]⟩

/-- A record whose period field is stored as an integer. -/
def recIntPeriod : Record :=
  [("end_date", Value.int 20231231), ("ann_date", Value.str "20240301")]

/-- A RecordSet whose period column is stored as integers. -/
def dfIntPeriod : DataFrame :=
  ⟨["end_date", "ann_date"], [recIntPeriod]⟩

/-! ### Order lemmas for the cell comparison -/

theorem strLeAux_refl : ∀ l : List Char, strLeAux l l = true
  | [] => rfl
  | a :: l => by simp [strLeAux, strLeAux_refl l]

theorem strLeAux_total : ∀ as bs : List Char, strLeAux as bs = true ∨ strLeAux bs as = true
  | [], _ => .inl rfl
  | _ :: _, [] => .inr rfl
  | a :: as, b :: bs => by
    by_cases h1 : a.toNat < b.toNat
    · left; simp [strLeAux, h1]
    · by_cases h2 : b.toNat < a.toNat
      · right; simp [strLeAux, h2]
      · have h := strLeAux_total as bs
        simpa [strLeAux, h1, h2] using h

theorem strLeAux_trans : ∀ as bs cs : List Char,
    strLeAux as bs = true → strLeAux bs cs = true → strLeAux as cs = true
  | [], _, _, _, _ => rfl
  | _ :: _, [], _, h1, _ => by simp [strLeAux] at h1
  | _ :: _, _ :: _, [], _, h2 => by simp [strLeAux] at h2
  | a :: as, b :: bs, c :: cs, h1, h2 => by
    simp only [strLeAux] at h1 h2 ⊢
    split_ifs at h1 h2 ⊢ <;>
      first
        | rfl
        | exact Bool.noConfusion h1
        | exact Bool.noConfusion h2
        | (exfalso; omega)
        | exact strLeAux_trans as bs cs h1 h2

theorem value_le_refl (a : Value) : a.le a = true := by
  cases a <;> simp [Value.le, strLe, strLeAux_refl]

theorem value_le_trans {a b c : Value} (h1 : a.le b = true) (h2 : b.le c = true) :
    a.le c = true := by
  cases a <;> cases b <;> cases c <;> simp_all [Value.le, strLe]
  · exact strLeAux_trans _ _ _ h1 h2
  · omega

theorem value_le_total (a b : Value) : a.le b = true ∨ b.le a = true := by
  cases a <;> cases b <;> simp only [Value.le, strLe, decide_eq_true_eq]
  · exact strLeAux_total _ _
  · exact .inr trivial
  · exact .inl trivial
  · omega

/-! ### Lemmas about the stable descending sort -/

theorem insertByAnn_perm (a : Record) (l : List Record) :
    List.Perm (insertByAnn a l) (a :: l) := by
  induction l with
  | nil => exact List.Perm.refl _
  | cons b l ih =>
    simp only [insertByAnn]
    split
    · exact List.Perm.refl _
    · exact (ih.cons b).trans (List.Perm.swap a b l)

theorem sortByAnnDesc_perm (l : List Record) : List.Perm (sortByAnnDesc l) l := by
  induction l with
  | nil => exact List.Perm.refl _
  | cons a l ih => exact (insertByAnn_perm a _).trans (ih.cons a)

theorem mem_sortByAnnDesc {l : List Record} {r : Record} :
    r ∈ sortByAnnDesc l ↔ r ∈ l :=
  (sortByAnnDesc_perm l).mem_iff

theorem sortByAnnDesc_ne_nil {l : List Record} (h : l ≠ []) :
    sortByAnnDesc l ≠ [] := by
  intro hs
  have hlen := (sortByAnnDesc_perm l).length_eq
  rw [hs] at hlen
  exact h (List.length_eq_zero.1 hlen.symm)

theorem insertByAnn_sorted {l : List Record}
    (h : l.Pairwise (fun x y => Value.le (annOf y) (annOf x) = true)) (a : Record) :
    (insertByAnn a l).Pairwise (fun x y => Value.le (annOf y) (annOf x) = true) := by
  induction l with
  | nil => exact List.pairwise_singleton _ _
  | cons b l ih =>
    rcases List.pairwise_cons.1 h with ⟨hb, hl⟩
    simp only [insertByAnn]
    split
    · rename_i hc
      refine List.pairwise_cons.2 ⟨?_, h⟩
      intro x hx
      rcases List.mem_cons.1 hx with rfl | hx
      · exact hc
      · exact value_le_trans (hb x hx) hc
    · rename_i hc
      refine List.pairwise_cons.2 ⟨?_, ih hl⟩
      intro x hx
      rcases List.mem_cons.1 ((insertByAnn_perm a l).mem_iff.1 hx) with rfl | hx
      · rcases value_le_total (annOf b) (annOf x) with h' | h'
        · exact absurd h' hc
        · exact h'
      · exact hb x hx

theorem sortByAnnDesc_sorted (l : List Record) :
    (sortByAnnDesc l).Pairwise (fun x y => Value.le (annOf y) (annOf x) = true) := by
  induction l with
  | nil => exact List.Pairwise.nil
  | cons a l ih => exact insertByAnn_sorted ih a

theorem sortByAnnDesc_head_max {l : List Record} {r : Record} {t : List Record}
    (h : sortByAnnDesc l = r :: t) :
    ∀ s ∈ l, Value.le (annOf s) (annOf r) = true := by
  intro s hs
  have hmem : s ∈ r :: t := h ▸ mem_sortByAnnDesc.2 hs
  rcases List.mem_cons.1 hmem with rfl | hmem
  · exact value_le_refl _
  · have hsorted := sortByAnnDesc_sorted l
    rw [h] at hsorted
    exact (List.pairwise_cons.1 hsorted).1 s hmem

theorem insertByAnn_filter_top {M : Value} {l : List Record} (a : Record)
    (hl : ∀ x ∈ l, Value.le (annOf x) M = true) :
    (insertByAnn a l).filter (fun s => annOf s == M)
      = (a :: l).filter (fun s => annOf s == M) := by
  induction l with
  | nil => rfl
  | cons b l ih =>
    simp only [insertByAnn]
    split
    · rfl
    · rename_i hc
      have hne : (annOf a == M) = false := by
        rw [beq_eq_false_iff_ne]
        intro heq
        exact hc (heq ▸ hl b (List.mem_cons_self b l))
      have ih' := ih fun x hx => hl x (List.mem_cons_of_mem b hx)
      simp only [List.filter_cons] at ih' ⊢
      simp only [hne, Bool.false_eq_true, if_false] at ih' ⊢
      rw [ih']

theorem sortByAnnDesc_filter_top {M : Value} {l : List Record}
    (hl : ∀ x ∈ l, Value.le (annOf x) M = true) :
    (sortByAnnDesc l).filter (fun s => annOf s == M)
      = l.filter (fun s => annOf s == M) := by
  induction l with
  | nil => rfl
  | cons a l ih =>
    simp only [sortByAnnDesc]
    rw [insertByAnn_filter_top a
      (fun x hx => hl x (List.mem_cons_of_mem a (mem_sortByAnnDesc.1 hx)))]
    have ih' := ih fun x hx => hl x (List.mem_cons_of_mem a hx)
    simp only [List.filter_cons, ih']

theorem filter_ann_eq_singleton {l : List Record}
    (hp : l.Pairwise (fun x y => annOf x ≠ annOf y)) {r : Record} (hr : r ∈ l) :
    l.filter (fun s => annOf s == annOf r) = [r] := by
  induction l with
  | nil => cases hr
  | cons a l ih =>
    rcases List.pairwise_cons.1 hp with ⟨ha, hl⟩
    rcases List.mem_cons.1 hr with rfl | hr
    · have hnil : l.filter (fun s => annOf s == annOf r) = [] := by
        rw [List.filter_eq_nil_iff]
        intro x hx
        simp only [beq_iff_eq]
        exact fun hx' => ha x hx hx'.symm
      simp [List.filter_cons, hnil]
    · have hna : (annOf a == annOf r) = false := by
        rw [beq_eq_false_iff_ne]
        exact ha r hr
      simp only [List.filter_cons, hna, cond_false]
      exact ih hl hr

/-! ### Path characterizations of the resolver -/

theorem filterPeriod_subset {df : DataFrame} {pfield pval : String} :
    ∀ r ∈ filterPeriod df pfield pval, r ∈ df.rows := by
  intro r hr
  exact List.mem_of_mem_filter hr

theorem filterPeriod_ne_nil_rows {df : DataFrame} {pfield pval : String}
    (hne : filterPeriod df pfield pval ≠ []) : df.rows ≠ [] := by
  intro h
  exact hne (by simp [filterPeriod, h])

theorem core_main_eq {df : DataFrame} {pfield pval : String} (b : Bool)
    (hann : "ann_date" ∈ df.cols) (hpf : pfield ∈ df.cols)
    (hne : filterPeriod df pfield pval ≠ [])
    {r : Record} {t : List Record}
    (hsort : sortByAnnDesc (filterPeriod df pfield pval) = r :: t) :
    fetchLatestReportCore df pfield pval b =
      if b then some ⟨df.cols, (r :: t).filter (fun s => annOf s == annOf r)⟩
      else some ⟨df.cols, ((r :: t).filter (fun s => annOf s == annOf r)).take 1⟩ := by
  have h1 : ¬df.rows.isEmpty = true := by
    simp [List.isEmpty_iff, filterPeriod_ne_nil_rows hne]
  have h2 : ¬"ann_date" ∉ df.cols := not_not_intro hann
  have h3 : ¬pfield ∉ df.cols := not_not_intro hpf
  have h4 : ¬(filterPeriod df pfield pval).isEmpty = true := by
    simp [List.isEmpty_iff, hne]
  unfold fetchLatestReportCore
  rw [if_neg h1, if_neg h2, if_neg h3, if_neg h4, hsort]

theorem core_noPeriodField_eq {df : DataFrame} {pfield pval : String} (b : Bool)
    (hrows : df.rows ≠ []) (hann : "ann_date" ∈ df.cols) (hpf : pfield ∉ df.cols)
    {r : Record} {t : List Record} (hsort : sortByAnnDesc df.rows = r :: t) :
    fetchLatestReportCore df pfield pval b =
      some ⟨df.cols, (r :: t).filter (fun s => annOf s == annOf r)⟩ := by
  have h1 : ¬df.rows.isEmpty = true := by simp [List.isEmpty_iff, hrows]
  have h2 : ¬"ann_date" ∉ df.cols := not_not_intro hann
  unfold fetchLatestReportCore
  rw [if_neg h1, if_neg h2, if_pos hpf, hsort]

theorem core_noAnnField_eq {df : DataFrame} {pfield pval : String} (b : Bool)
    (hrows : df.rows ≠ []) (hann : "ann_date" ∉ df.cols) :
    fetchLatestReportCore df pfield pval b =
      if b then some df else some ⟨df.cols, df.rows.take 1⟩ := by
  have h1 : ¬df.rows.isEmpty = true := by simp [List.isEmpty_iff, hrows]
  unfold fetchLatestReportCore
  rw [if_neg h1, if_pos hann]

theorem core_empty_eq {df : DataFrame} {pfield pval : String} (b : Bool)
    (hrows : df.rows = []) :
    fetchLatestReportCore df pfield pval b = none := by
  unfold fetchLatestReportCore
  rw [if_pos (by simp [List.isEmpty_iff, hrows])]

theorem core_noMatch_eq {df : DataFrame} {pfield pval : String} (b : Bool)
    (hrows : df.rows ≠ []) (hann : "ann_date" ∈ df.cols) (hpf : pfield ∈ df.cols)
    (hfil : filterPeriod df pfield pval = []) :
    fetchLatestReportCore df pfield pval b = none := by
  have h1 : ¬df.rows.isEmpty = true := by simp [List.isEmpty_iff, hrows]
  have h2 : ¬"ann_date" ∉ df.cols := not_not_intro hann
  have h3 : ¬pfield ∉ df.cols := not_not_intro hpf
  unfold fetchLatestReportCore
  rw [if_neg h1, if_neg h2, if_neg h3, if_pos (by simp [List.isEmpty_iff, hfil])]

theorem mainPath {df : DataFrame} {pfield pval : String}
    (hann : "ann_date" ∈ df.cols) (hpf : pfield ∈ df.cols)
    (hne : filterPeriod df pfield pval ≠ []) :
    ∃ r, r ∈ filterPeriod df pfield pval
      ∧ (∀ s ∈ filterPeriod df pfield pval, Value.le (annOf s) (annOf r) = true)
      ∧ fetchLatestReportCore df pfield pval true
          = some ⟨df.cols,
              (filterPeriod df pfield pval).filter (fun s => annOf s == annOf r)⟩
      ∧ fetchLatestReportCore df pfield pval false
          = some ⟨df.cols,
              ((filterPeriod df pfield pval).filter (fun s => annOf s == annOf r)).take 1⟩ := by
  cases hsort : sortByAnnDesc (filterPeriod df pfield pval) with
  | nil => exact absurd hsort (sortByAnnDesc_ne_nil hne)
  | cons r t =>
    have hrmem : r ∈ filterPeriod df pfield pval :=
      mem_sortByAnnDesc.1 (hsort ▸ List.mem_cons_self r t)
    have hmax := sortByAnnDesc_head_max hsort
    have hstab := sortByAnnDesc_filter_top (M := annOf r) hmax
    rw [hsort] at hstab
    refine ⟨r, hrmem, hmax, ?_, ?_⟩
    · rw [core_main_eq true hann hpf hne hsort, if_pos rfl, hstab]
    · rw [core_main_eq false hann hpf hne hsort, if_neg (by simp), hstab]

theorem take_one_ne_nil {l : List Record} (h : l ≠ []) : l.take 1 ≠ [] := by
  cases l with
  | nil => exact absurd rfl h
  | cons a l => simp

theorem length_take_one {l : List Record} (h : l ≠ []) : (l.take 1).length = 1 := by
  cases l with
  | nil => exact absurd rfl h
  | cons a l => rfl

theorem annOnlyPath {df : DataFrame} {pfield pval : String}
    (hrows : df.rows ≠ []) (hann : "ann_date" ∈ df.cols) (hpf : pfield ∉ df.cols) :
    ∃ r, r ∈ df.rows
      ∧ (∀ s ∈ df.rows, Value.le (annOf s) (annOf r) = true)
      ∧ ∀ b : Bool, fetchLatestReportCore df pfield pval b
          = some ⟨df.cols, df.rows.filter (fun s => annOf s == annOf r)⟩ := by
  cases hsort : sortByAnnDesc df.rows with
  | nil => exact absurd hsort (sortByAnnDesc_ne_nil hrows)
  | cons r t =>
    have hrmem : r ∈ df.rows := mem_sortByAnnDesc.1 (hsort ▸ List.mem_cons_self r t)
    have hmax := sortByAnnDesc_head_max hsort
    have hstab := sortByAnnDesc_filter_top (M := annOf r) hmax
    rw [hsort] at hstab
    refine ⟨r, hrmem, hmax, fun b => ?_⟩
    rw [core_noPeriodField_eq b hrows hann hpf hsort, hstab]

/-! ### The claims -/

/-- Claim C1: when both `ann_date` and the period field are present and at
least one record matches the target period, with all matching records
carrying pairwise distinct announcement timestamps, the resolver returns in
single mode exactly the matching record with the maximum announcement
timestamp, and in list mode all matching records at that maximum - here
exactly that one record, the count of returned records (one) equalling the
count of matching records at the maximum timestamp. -/
theorem claimC1_latest_report_selection (df : DataFrame) (pfield pval : String)
    (hann : "ann_date" ∈ df.cols) (hpf : pfield ∈ df.cols)
    (hne : filterPeriod df pfield pval ≠ [])
    (hdist : (filterPeriod df pfield pval).Pairwise (fun x y => annOf x ≠ annOf y)) :
    ∃ r, r ∈ filterPeriod df pfield pval
      ∧ (∀ s ∈ filterPeriod df pfield pval, Value.le (annOf s) (annOf r) = true)
      ∧ fetchLatestReportCore df pfield pval false = some ⟨df.cols, [r]⟩
      ∧ fetchLatestReportCore df pfield pval true = some ⟨df.cols, [r]⟩
      ∧ ((filterPeriod df pfield pval).filter (fun s => annOf s == annOf r)).length = 1 := by
  obtain ⟨r, hrmem, hmax, htrue, hfalse⟩ := mainPath hann hpf hne
  have hsing : (filterPeriod df pfield pval).filter (fun s => annOf s == annOf r) = [r] :=
    filter_ann_eq_singleton hdist hrmem
  refine ⟨r, hrmem, hmax, ?_, ?_, ?_⟩
  · rw [hfalse, hsing]; rfl
  · rw [htrue, hsing]
  · rw [hsing]; rfl

/-- Claim C1 witness: the spec section 8 example, where the 2024-03-15
disclosure of period 20231231 supersedes the 2024-03-01 one. -/
theorem claimC1_witness :
    ∃ r, r ∈ filterPeriod dfSpecExample "end_date" "20231231"
      ∧ (∀ s ∈ filterPeriod dfSpecExample "end_date" "20231231",
          Value.le (annOf s) (annOf r) = true)
      ∧ fetchLatestReportCore dfSpecExample "end_date" "20231231" false
          = some ⟨dfSpecExample.cols, [r]⟩
      ∧ fetchLatestReportCore dfSpecExample "end_date" "20231231" true
          = some ⟨dfSpecExample.cols, [r]⟩
      ∧ ((filterPeriod dfSpecExample "end_date" "20231231").filter
          (fun s => annOf s == annOf r)).length = 1 :=
  claimC1_latest_report_selection dfSpecExample "end_date" "20231231"
    (by decide) (by decide) (by decide) (by decide)

/-- Claim C2 counterexample: the source wraps the entire body, fetch call
included, in `try ... except Exception: return None` (src/server.py lines
60, 109-112), so a raising fetch does NOT propagate: the resolver returns
normally with `None`. -/
theorem claimC2_counterexample :
    fetchLatestReportData (Except.error "network failure") "end_date" "20231231" false
      = Except.ok none
    ∧ fetchLatestReportData (Except.error "network failure") "end_date" "20231231" false
      ≠ Except.error "network failure" :=
  ⟨rfl, fun h => Except.noConfusion h⟩

/-- Claim C2 amended: an exception raised by the fetch call is caught inside
the resolver itself (no retry), logged, and converted into a normal `None`
return; it never reaches the caller as an exception. -/
theorem claimC2_amended_absorbs_fetch_exception (e : String) (pfield pval : String)
    (isList : Bool) :
    fetchLatestReportData (Except.error e) pfield pval isList = Except.ok none := rfl

/-- Claim C3: the resolver returns `None` exactly in the no-usable-match
cases - the RecordSet is empty, or both distinguished fields are present but
no record's period field equals the target under string comparison (no
fallback to approximate matches). -/
theorem claimC3_none_iff_no_usable_match (df : DataFrame) (pfield pval : String)
    (b : Bool) :
    fetchLatestReportCore df pfield pval b = none ↔
      df.rows = [] ∨
        ("ann_date" ∈ df.cols ∧ pfield ∈ df.cols ∧
          ∀ r ∈ df.rows, (Record.get r pfield).toStr ≠ pval) := by
  constructor
  · intro h
    by_cases hrows : df.rows = []
    · exact .inl hrows
    · by_cases hann : "ann_date" ∈ df.cols
      · by_cases hpf : pfield ∈ df.cols
        · by_cases hfil : filterPeriod df pfield pval = []
          · refine .inr ⟨hann, hpf, fun r hr heq => ?_⟩
            have hmem : r ∈ filterPeriod df pfield pval :=
              List.mem_filter.2 ⟨hr, by simp [periodMatches, heq]⟩
            rw [hfil] at hmem
            cases hmem
          · obtain ⟨r, _, _, ht, hf⟩ := mainPath hann hpf hfil
            cases b
            · rw [hf] at h; cases h
            · rw [ht] at h; cases h
        · obtain ⟨r, _, _, hb⟩ := annOnlyPath hrows hann hpf
          rw [hb b] at h
          cases h
      · rw [core_noAnnField_eq b hrows hann] at h
        cases b
        · rw [if_neg Bool.false_ne_true] at h; cases h
        · rw [if_pos rfl] at h; cases h
  · intro h
    rcases h with hrows | ⟨hann, hpf, hno⟩
    · exact core_empty_eq b hrows
    · by_cases hrows : df.rows = []
      · exact core_empty_eq b hrows
      · have hfil : filterPeriod df pfield pval = [] := by
          rw [filterPeriod, List.filter_eq_nil_iff]
          intro r hr
          simp only [periodMatches, beq_iff_eq]
          exact hno r hr
        exact core_noMatch_eq b hrows hann hpf hfil

/-- Claim C4 counterexample: with `returnAllForLatestAnnouncement = false`,
on a RecordSet that lacks the period field and has two records tied at the
latest announcement date, the resolver returns a non-`None` result with TWO
records (the missing-period-field fallback ignores the mode flag,
src/server.py line 79), contradicting the claim that every non-`None`
single-mode result has exactly one record on every path. -/
theorem claimC4_counterexample :
    fetchLatestReportCore dfNoPeriodField "end_date" "20231231" false
      = some dfNoPeriodFieldOut
    ∧ dfNoPeriodFieldOut.rows.length = 2 :=
  ⟨by decide, by decide⟩

/-- Claim C4 amended: with `returnAllForLatestAnnouncement = false`, every
non-`None` result has exactly one record on every path EXCEPT the
missing-period-field fallback (announcement field present, period field
absent), which returns all records tied at the latest announcement
timestamp regardless of the mode flag. -/
theorem claimC4_amended_single_mode (df : DataFrame) (pfield pval : String)
    (L : DataFrame) (hpath : "ann_date" ∉ df.cols ∨ pfield ∈ df.cols)
    (h : fetchLatestReportCore df pfield pval false = some L) :
    L.rows.length = 1 := by
  by_cases hrows : df.rows = []
  · rw [core_empty_eq false hrows] at h; cases h
  · have noann : "ann_date" ∉ df.cols → L.rows.length = 1 := by
      intro hann
      rw [core_noAnnField_eq false hrows hann, if_neg Bool.false_ne_true] at h
      obtain rfl := Option.some.inj h
      exact length_take_one hrows
    rcases hpath with hann | hpf
    · exact noann hann
    · by_cases hann : "ann_date" ∈ df.cols
      · by_cases hfil : filterPeriod df pfield pval = []
        · rw [core_noMatch_eq false hrows hann hpf hfil] at h; cases h
        · obtain ⟨r, hrmem, _, _, hf⟩ := mainPath hann hpf hfil
          rw [hf] at h
          obtain rfl := Option.some.inj h
          have hrfil : r ∈ (filterPeriod df pfield pval).filter
              (fun s => annOf s == annOf r) :=
            List.mem_filter.2 ⟨hrmem, by simp⟩
          exact length_take_one (List.ne_nil_of_mem hrfil)
      · exact noann hann

/-- Claim C4 witness: on the spec example in single mode (a path where both
fields are present) the result has exactly one record. -/
theorem claimC4_witness : dfSpecExampleOut.rows.length = 1 :=
  claimC4_amended_single_mode dfSpecExample "end_date" "20231231" dfSpecExampleOut
    (Or.inr (by decide)) (by decide)

/-- Claim C5: on a non-empty RecordSet that has `ann_date` but lacks the
caller's period field, the resolver skips period filtering, computes the
maximum announcement timestamp over all records, and returns all records at
that maximum, regardless of the mode flag. -/
theorem claimC5_missing_period_field (df : DataFrame) (pfield pval : String)
    (hrows : df.rows ≠ []) (hann : "ann_date" ∈ df.cols) (hpf : pfield ∉ df.cols) :
    ∃ M : Value, (∃ s ∈ df.rows, annOf s = M)
      ∧ (∀ s ∈ df.rows, Value.le (annOf s) M = true)
      ∧ ∀ b : Bool, fetchLatestReportCore df pfield pval b
          = some ⟨df.cols, df.rows.filter (fun s => annOf s == M)⟩ := by
  obtain ⟨r, hrmem, hmax, hb⟩ := annOnlyPath hrows hann hpf
  exact ⟨annOf r, ⟨r, hrmem, rfl⟩, hmax, hb⟩

/-- Claim C5 witness: a two-record frame lacking `end_date`, both records
tied at the maximum announcement date. -/
theorem claimC5_witness :
    ∃ M : Value, (∃ s ∈ dfNoPeriodField.rows, annOf s = M)
      ∧ (∀ s ∈ dfNoPeriodField.rows, Value.le (annOf s) M = true)
      ∧ ∀ b : Bool, fetchLatestReportCore dfNoPeriodField "end_date" "20231231" b
          = some ⟨dfNoPeriodField.cols,
              dfNoPeriodField.rows.filter (fun s => annOf s == M)⟩ :=
  claimC5_missing_period_field dfNoPeriodField "end_date" "20231231"
    (by decide) (by decide) (by decide)

/-- Claim C6: on a non-empty RecordSet lacking `ann_date`, the resolver does
not raise: list mode returns the full RecordSet unchanged, single mode
returns its first record in upstream order, with no period filtering. -/
theorem claimC6_missing_ann_field (df : DataFrame) (pfield pval : String)
    (hrows : df.rows ≠ []) (hann : "ann_date" ∉ df.cols) :
    fetchLatestReportCore df pfield pval true = some df
    ∧ ∃ r t, df.rows = r :: t
        ∧ fetchLatestReportCore df pfield pval false = some ⟨df.cols, [r]⟩ := by
  cases hr : df.rows with
  | nil => exact absurd hr hrows
  | cons r t =>
    constructor
    · rw [core_noAnnField_eq true hrows hann, if_pos rfl]
    · refine ⟨r, t, rfl, ?_⟩
      rw [core_noAnnField_eq false hrows hann, if_neg Bool.false_ne_true, hr]
      rfl

/-- Claim C6 witness: a two-record frame lacking `ann_date`. -/
theorem claimC6_witness :
    fetchLatestReportCore dfNoAnnField "end_date" "20231231" true = some dfNoAnnField
    ∧ ∃ r t, dfNoAnnField.rows = r :: t
        ∧ fetchLatestReportCore dfNoAnnField "end_date" "20231231" false
            = some ⟨dfNoAnnField.cols, [r]⟩ :=
  claimC6_missing_ann_field dfNoAnnField "end_date" "20231231" (by decide) (by decide)

/-- Claim C8: period matching is type-tolerant - a record whose period field
holds an integer is kept by the period filter exactly when the decimal string
rendering of that integer equals the string target (both sides compared
after conversion to string, src/server.py line 83). -/
theorem claimC8_type_tolerant_match (df : DataFrame) (pfield pval : String)
    (r : Record) (n : Int) (hr : r ∈ df.rows)
    (hv : Record.get r pfield = Value.int n) :
    r ∈ filterPeriod df pfield pval ↔ toString n = pval := by
  constructor
  · intro hmem
    have hp := (List.mem_filter.1 hmem).2
    simpa [periodMatches, hv, Value.toStr] using hp
  · intro heq
    exact List.mem_filter.2 ⟨hr, by simp [periodMatches, hv, Value.toStr, heq]⟩

/-- Claim C8 witness: the integer period value 20231231 matches the string
target "20231231". -/
theorem claimC8_witness : recIntPeriod ∈ filterPeriod dfIntPeriod "end_date" "20231231" :=
  (claimC8_type_tolerant_match dfIntPeriod "end_date" "20231231" recIntPeriod 20231231
    (by decide) (by decide)).mpr (by decide)

/-- Claim C9: the resolver is deterministic and stateless - two successive
calls with the same RecordSet and parameters yield identical results, and
the input RecordSet is unchanged after both calls (every pandas operation
the source applies returns a fresh object). -/
theorem claimC9_deterministic_stateless (df : DataFrame) (pfield pval : String)
    (isList : Bool) :
    (twoCalls df pfield pval isList).1.1 = (twoCalls df pfield pval isList).1.2
    ∧ (twoCalls df pfield pval isList).2 = df :=
  ⟨rfl, rfl⟩

/-- Claim C10: every non-`None` result is a non-empty RecordSet all of whose
records come from the fetched input RecordSet - the resolver never returns
an empty frame in place of `None` and never fabricates records. -/
theorem claimC10_result_rows_from_input (df : DataFrame) (pfield pval : String)
    (b : Bool) (L : DataFrame)
    (h : fetchLatestReportCore df pfield pval b = some L) :
    L.rows ≠ [] ∧ ∀ r ∈ L.rows, r ∈ df.rows := by
  by_cases hrows : df.rows = []
  · rw [core_empty_eq b hrows] at h; cases h
  · by_cases hann : "ann_date" ∈ df.cols
    · by_cases hpf : pfield ∈ df.cols
      · by_cases hfil : filterPeriod df pfield pval = []
        · rw [core_noMatch_eq b hrows hann hpf hfil] at h; cases h
        · obtain ⟨r, hrmem, _, ht, hf⟩ := mainPath hann hpf hfil
          have hrfil : r ∈ (filterPeriod df pfield pval).filter
              (fun s => annOf s == annOf r) :=
            List.mem_filter.2 ⟨hrmem, by simp⟩
          cases b
          · rw [hf] at h
            obtain rfl := Option.some.inj h
            refine ⟨take_one_ne_nil (List.ne_nil_of_mem hrfil), fun x hx => ?_⟩
            exact filterPeriod_subset x
              (List.mem_of_mem_filter (List.mem_of_mem_take hx))
          · rw [ht] at h
            obtain rfl := Option.some.inj h
            refine ⟨List.ne_nil_of_mem hrfil, fun x hx => ?_⟩
            exact filterPeriod_subset x (List.mem_of_mem_filter hx)
      · obtain ⟨r, hrmem, _, hb⟩ := annOnlyPath hrows hann hpf
        rw [hb b] at h
        obtain rfl := Option.some.inj h
        have hrfil : r ∈ df.rows.filter (fun s => annOf s == annOf r) :=
          List.mem_filter.2 ⟨hrmem, by simp⟩
        exact ⟨List.ne_nil_of_mem hrfil, fun x hx => List.mem_of_mem_filter hx⟩
    · rw [core_noAnnField_eq b hrows hann] at h
      cases b
      · rw [if_neg Bool.false_ne_true] at h
        obtain rfl := Option.some.inj h
        exact ⟨take_one_ne_nil hrows, fun x hx => List.mem_of_mem_take hx⟩
      · rw [if_pos rfl] at h
        obtain rfl := Option.some.inj h
        exact ⟨hrows, fun x hx => hx⟩

/-- Claim C10 witness: on the spec example in single mode, the returned
single-row frame is non-empty and its row comes from the input. -/
theorem claimC10_witness :
    dfSpecExampleOut.rows ≠ [] ∧ ∀ r ∈ dfSpecExampleOut.rows, r ∈ dfSpecExample.rows :=
  claimC10_result_rows_from_input dfSpecExample "end_date" "20231231" false
    dfSpecExampleOut (by decide)
